import Mathlib

/-
Verification development for the invoice reimbursement analysis service
(src/Invoice_Reimbursement.py). The Python pipeline is shallowly embedded:

  - raw bytes are lists of naturals;
  - the external libraries PyPDF2, zipfile and the hosted language model are
    opaque collaborators, so they enter the embedding as explicit oracle
    functions supplied to each operation (their outcomes on the request at
    hand), while all control flow, filtering, wrapping of errors and data
    conversion written in the repository itself is translated directly;
  - json.loads is embedded by an executable JSON parser over exact rational
    numbers (IEEE rounding of extreme decimal literals and the nonstandard
    NaN and Infinity extensions are abstracted away; no claim depends on
    them), returning the last binding for duplicate object keys the way a
    Python dict built key by key does;
  - Python exceptions become values: HTTPException is the pair of a status
    code and a detail string, every other exception is represented by its
    message, and the textual content of library exception messages is
    abstracted by fixed strings where the repository only interpolates them.
-/

abbrev Bytes := List Nat

/-- An HTTPException value: status code plus detail message. -/
structure HTTPError where
  statusCode : Nat
  detail : String
deriving DecidableEq

/-- A Python exception: either an HTTPException or any other exception,
represented by its message. -/
inductive PyExc where
  | http (e : HTTPError)
  | other (msg : String)
deriving DecidableEq

/-- Python str of an HTTPException, as interpolated by format strings:
statusCode, colon, space, detail. -/
def strOfHTTPError (e : HTTPError) : String :=
  toString e.statusCode ++ ": " ++ e.detail

/-- Outcome of PyPDF2 on a byte stream: the list of page texts when the
stream opens and every page extracts, otherwise the exception message. -/
inductive PdfParse where
  | ok (pages : List String)
  | err (msg : String)

/-- One member of a ZIP archive: its recorded path and its raw bytes. -/
structure ZipMember where
  filename : String
  data : Bytes

/-- Outcome of zipfile on a byte stream: the member list when the archive
opens, otherwise the exception message. -/
inductive ZipOpen where
  | ok (entries : List ZipMember)
  | err (msg : String)

/-- A multipart upload: declared filename plus the outcome of reading its
bytes (reading may raise a non-HTTP exception). -/
structure UploadFile where
  filename : String
  readResult : Except String Bytes

/-- The JSON value model used to embed json.loads. -/
inductive Json where
  | null
  | bool (b : Bool)
  | num (q : Rat)
  | str (s : String)
  | arr (elems : List Json)
  | obj (fields : List (String × Json))

/-- Insertion into a Python dict built key by key: an existing key keeps its
position and receives the new value, a new key is appended. -/
def dictInsert {α : Type} (d : List (String × α)) (k : String) (v : α) :
    List (String × α) :=
  if d.any (fun p => p.1 == k) then
    d.map (fun p => if p.1 == k then (k, v) else p)
  else d ++ [(k, v)]

/-- Lookup in a Python dict represented as an association list with unique
keys. -/
def jsonLookup (fields : List (String × Json)) (k : String) : Option Json :=
  (fields.find? (fun p => p.1 == k)).map (fun p => p.2)

/-- JSON insignificant whitespace. -/
def isJsonWs (c : Char) : Bool :=
  c = ' ' || c = '\t' || c = '\n' || c = '\r'

/-- Drop leading JSON whitespace. -/
def skipWs : List Char → List Char
  | [] => []
  | c :: cs => if isJsonWs c then skipWs cs else c :: cs

/-- Python ASCII whitespace, the character class stripped by the str strip
method (its further unicode whitespace is abstracted away). -/
def isPyWs (c : Char) : Bool :=
  c = ' ' || c = '\t' || c = '\n' || c = '\r' || c = '\x0b' || c = '\x0c'

/-- Embedding of the Python str strip method with no argument. -/
def pyStrip (s : String) : String :=
  String.mk (((s.data.dropWhile isPyWs).reverse.dropWhile isPyWs).reverse)

/-- Embedding of the Python str lower method on ASCII letters (its further
unicode case mapping is abstracted away). -/
def pyLower (s : String) : String :=
  String.mk (s.data.map (fun c =>
    if 'A' ≤ c ∧ c ≤ 'Z' then Char.ofNat (c.toNat + 32) else c))

/-- Embedding of the Python str endswith method. -/
def pyEndsWith (s suffix : String) : Bool :=
  decide (s.data.reverse.take suffix.data.length = suffix.data.reverse)

/-- Decimal value of a digit list. -/
def digitsToNat (ds : List Char) : Nat :=
  ds.foldl (fun a c => a * 10 + (c.toNat - 48)) 0

/-- Split off the maximal leading run of decimal digits. -/
def takeDigits : List Char → List Char × List Char
  | [] => ([], [])
  | c :: cs =>
    if c.isDigit then
      let r := takeDigits cs
      (c :: r.1, r.2)
    else ([], c :: cs)

/-- Ten to an integer power, as a rational. -/
def pow10 (e : Int) : Rat :=
  if 0 ≤ e then ((10 : Rat)) ^ e.toNat else 1 / ((10 : Rat)) ^ (-e).toNat

/-- Parse the fraction part after the integer digits: optional dot plus
digits. Returns the fractional value and the remaining input, or none when a
dot is not followed by a digit. -/
def parseFracPart (cs : List Char) : Option (Rat × List Char) :=
  match cs with
  | '.' :: rest =>
    let p := takeDigits rest
    if p.1 = [] then none
    else some (((digitsToNat p.1 : Nat) : Rat) / ((10 : Rat) ^ p.1.length), p.2)
  | _ => some (0, cs)

/-- Parse the exponent part: optional e or E, optional sign, digits. -/
def parseExpPart (cs : List Char) : Option (Int × List Char) :=
  match cs with
  | 'e' :: rest =>
    match rest with
    | '-' :: r2 =>
      let p := takeDigits r2
      if p.1 = [] then none else some (-(digitsToNat p.1 : Int), p.2)
    | '+' :: r2 =>
      let p := takeDigits r2
      if p.1 = [] then none else some ((digitsToNat p.1 : Int), p.2)
    | _ =>
      let p := takeDigits rest
      if p.1 = [] then none else some ((digitsToNat p.1 : Int), p.2)
  | 'E' :: rest =>
    match rest with
    | '-' :: r2 =>
      let p := takeDigits r2
      if p.1 = [] then none else some (-(digitsToNat p.1 : Int), p.2)
    | '+' :: r2 =>
      let p := takeDigits r2
      if p.1 = [] then none else some ((digitsToNat p.1 : Int), p.2)
    | _ =>
      let p := takeDigits rest
      if p.1 = [] then none else some ((digitsToNat p.1 : Int), p.2)
  | _ => some (0, cs)

/-- Parse a JSON number: optional minus, integer part with no leading zeros,
optional fraction, optional exponent. Yields its exact rational value. -/
def parseNumber (cs : List Char) : Option (Rat × List Char) :=
  let signed : Bool × List Char :=
    match cs with
    | '-' :: rest => (true, rest)
    | _ => (false, cs)
  match signed.2 with
  | [] => none
  | c :: rest =>
    let intPart : Option (Nat × List Char) :=
      if c = '0' then some (0, rest)
      else if c.isDigit then
        let p := takeDigits signed.2
        some (digitsToNat p.1, p.2)
      else none
    match intPart with
    | none => none
    | some (n, r1) =>
      match parseFracPart r1 with
      | none => none
      | some (f, r2) =>
        match parseExpPart r2 with
        | none => none
        | some (e, r3) =>
          let base : Rat := ((n : Nat) : Rat) + f
          let v : Rat := (if signed.1 then -base else base) * pow10 e
          some (v, r3)

/-- Hexadecimal digit value. -/
def hexVal (c : Char) : Option Nat :=
  if c.isDigit then some (c.toNat - 48)
  else if 'a' ≤ c ∧ c ≤ 'f' then some (c.toNat - 87)
  else if 'A' ≤ c ∧ c ≤ 'F' then some (c.toNat - 70)
  else none

/-- Parse the body of a JSON string literal after the opening quote, with the
standard escapes. Characters below 0x20 must be escaped. -/
def parseJStr : Nat → List Char → List Char → Option (String × List Char)
  | 0, _, _ => none
  | Nat.succ fuel, cs, acc =>
    match cs with
    | [] => none
    | '"' :: rest => some (String.mk acc.reverse, rest)
    | '\\' :: rest =>
      match rest with
      | [] => none
      | e :: r2 =>
        if e = '"' then parseJStr fuel r2 ('"' :: acc)
        else if e = '\\' then parseJStr fuel r2 ('\\' :: acc)
        else if e = '/' then parseJStr fuel r2 ('/' :: acc)
        else if e = 'b' then parseJStr fuel r2 (Char.ofNat 8 :: acc)
        else if e = 'f' then parseJStr fuel r2 (Char.ofNat 12 :: acc)
        else if e = 'n' then parseJStr fuel r2 ('\n' :: acc)
        else if e = 'r' then parseJStr fuel r2 ('\r' :: acc)
        else if e = 't' then parseJStr fuel r2 ('\t' :: acc)
        else if e = 'u' then
          match r2 with
          | a :: b :: c :: d :: r3 =>
            match hexVal a, hexVal b, hexVal c, hexVal d with
            | some ha, some hb, some hc, some hd =>
              let code := ((ha * 16 + hb) * 16 + hc) * 16 + hd
              parseJStr fuel r3 (Char.ofNat code :: acc)
            | _, _, _, _ => none
          | _ => none
        else none
    | c :: rest =>
      if c.toNat < 32 then none else parseJStr fuel rest (c :: acc)

/-- Match a fixed literal tail such as rue, alse, ull. -/
def matchLit (lit : List Char) (cs : List Char) : Option (List Char) :=
  if cs.take lit.length = lit then some (cs.drop lit.length) else none

mutual

/-- Parse one JSON value from the input, fuel-bounded. -/
def parseValue : Nat → List Char → Option (Json × List Char)
  | 0, _ => none
  | Nat.succ fuel, cs0 =>
    match skipWs cs0 with
    | [] => none
    | c :: rest =>
      if c = '"' then
        (parseJStr fuel rest []).map (fun p => (Json.str p.1, p.2))
      else if c = '[' then
        match skipWs rest with
        | ']' :: r2 => some (Json.arr [], r2)
        | r => parseArrayRest fuel r []
      else if c = '\x7b' then
        match skipWs rest with
        | '\x7d' :: r2 => some (Json.obj [], r2)
        | r => parseObjRest fuel r []
      else if c = 't' then
        (matchLit ['r', 'u', 'e'] rest).map (fun r2 => (Json.bool true, r2))
      else if c = 'f' then
        (matchLit ['a', 'l', 's', 'e'] rest).map (fun r2 => (Json.bool false, r2))
      else if c = 'n' then
        (matchLit ['u', 'l', 'l'] rest).map (fun r2 => (Json.null, r2))
      else if c = '-' ∨ c.isDigit then
        (parseNumber (c :: rest)).map (fun p => (Json.num p.1, p.2))
      else none

/-- Parse the remaining elements of a nonempty JSON array. -/
def parseArrayRest : Nat → List Char → List Json → Option (Json × List Char)
  | 0, _, _ => none
  | Nat.succ fuel, cs, acc =>
    match parseValue fuel cs with
    | none => none
    | some (v, rest) =>
      match skipWs rest with
      | ']' :: r2 => some (Json.arr (acc ++ [v]), r2)
      | ',' :: r2 => parseArrayRest fuel r2 (acc ++ [v])
      | _ => none

/-- Parse the remaining entries of a nonempty JSON object, collapsing
duplicate keys the way a Python dict does. -/
def parseObjRest : Nat → List Char → List (String × Json) →
    Option (Json × List Char)
  | 0, _, _ => none
  | Nat.succ fuel, cs, acc =>
    match skipWs cs with
    | '"' :: r =>
      match parseJStr fuel r [] with
      | none => none
      | some (k, r2) =>
        match skipWs r2 with
        | ':' :: r3 =>
          match parseValue fuel r3 with
          | none => none
          | some (v, r4) =>
            match skipWs r4 with
            | '\x7d' :: r5 => some (Json.obj (dictInsert acc k v), r5)
            | ',' :: r5 => parseObjRest fuel r5 (dictInsert acc k v)
            | _ => none
        | _ => none
    | _ => none

end

/-- Embedding of json.loads on a character list: one JSON document, possibly
surrounded by whitespace, and nothing else. -/
def jsonParseChars (cs : List Char) : Option Json :=
  match parseValue (2 * cs.length + 8) cs with
  | some (j, rest) => if skipWs rest = [] then some j else none
  | none => none

/-- Embedding of json.loads on a string. -/
def jsonLoads (s : String) : Option Json :=
  jsonParseChars s.data

/-- Embedding of the regex search for a JSON array span with DOTALL and a
greedy body: the span from the earliest opening bracket through the last
closing bracket, provided the former strictly precedes the latter. -/
def matchArraySpan (s : String) : Option String :=
  let cs := s.data
  match cs.findIdx? (fun c => c == '[') with
  | none => none
  | some i =>
    match cs.reverse.findIdx? (fun c => c == ']') with
    | none => none
    | some rj =>
      let j := cs.length - 1 - rj
      if i < j then some (String.mk ((cs.drop i).take (j - i + 1))) else none

/-- The InvoiceAnalysis record of the service: pydantic model with a string
invoice id, a verbatim status string, an integer amount and a reason. -/
structure InvoiceAnalysis where
  invoice_id : String
  reimbursement_status : String
  reimbursable_amount : Int
  reason : String
deriving DecidableEq

/-- The ReimbursementResponse record: the analyses plus the processed
count. -/
structure ReimbursementResponse where
  analyses : List InvoiceAnalysis
  total_invoices_processed : Nat
deriving DecidableEq

/-- Truncation of a rational toward zero, the behaviour of the Python int
builtin on a float. -/
def ratTrunc (q : Rat) : Int :=
  if 0 ≤ q then q.floor else q.ceil

/-- The Python int builtin on a decoded JSON string: strip whitespace, allow
one sign, then decimal digits (digit grouping underscores are abstracted
away; no claim depends on them). -/
def pyIntString (s : String) : Option Int :=
  let cs := (skipWs ((skipWs s.data).reverse)).reverse
  match cs with
  | '-' :: ds =>
    if ds = [] then none
    else if ds.all Char.isDigit then some (-(digitsToNat ds : Int)) else none
  | '+' :: ds =>
    if ds = [] then none
    else if ds.all Char.isDigit then some ((digitsToNat ds : Int)) else none
  | ds =>
    if ds = [] then none
    else if ds.all Char.isDigit then some ((digitsToNat ds : Int)) else none

/-- The Python int builtin applied to a decoded JSON value: numbers truncate
toward zero, booleans become zero or one, integer strings parse, everything
else raises. -/
def pyIntOfJson : Json → Option Int
  | Json.num q => some (ratTrunc q)
  | Json.bool b => some (if b then 1 else 0)
  | Json.str s => pyIntString s
  | _ => none

/-- Conversion of one decoded array element into an InvoiceAnalysis, lines
154 to 161 of the source: the element must be a dict carrying the four
required keys with string values for the three text fields, and the amount
passes through the int builtin. Any failure raises, aborting the batch. -/
def convertOne (j : Json) : Option InvoiceAnalysis :=
  match j with
  | Json.obj fields =>
    match jsonLookup fields "invoice_id", jsonLookup fields "reimbursement_status",
        jsonLookup fields "reimbursable_amount", jsonLookup fields "reason" with
    | some (Json.str iid), some (Json.str st), some amt, some (Json.str rs) =>
      match pyIntOfJson amt with
      | some n => some { invoice_id := iid, reimbursement_status := st,
                         reimbursable_amount := n, reason := rs }
      | none => none
    | _, _, _, _ => none
  | _ => none

/-- Conversion of the whole decoded sequence; the first failing element
aborts everything. -/
def convertAnalyses : List Json → Option (List InvoiceAnalysis)
  | [] => some []
  | j :: rest =>
    match convertOne j with
    | some a => (convertAnalyses rest).map (fun l => a :: l)
    | none => none

/-- Python iteration over the decoded JSON value: arrays yield elements,
dicts yield their keys, strings yield their characters, everything else
raises a type error. -/
def pyIterElems : Json → Option (List Json)
  | Json.arr xs => some xs
  | Json.obj fields => some (fields.map (fun p => Json.str p.1))
  | Json.str s => some (s.data.map (fun c => Json.str (String.mk [c])))
  | _ => none

/-- Abstracted message of the json module decode exception. -/
def jsonDecodeFailMsg : String := "Expecting value"

/-- Abstracted message of the exception raised while converting a decoded
element: a missing key or a mistyped field. -/
def elemFailMsg : String := "missing or invalid field in model output element"

/-- Abstracted message of the type error raised when the decoded value is
not iterable. -/
def notIterableMsg : String := "model output JSON is not iterable"

/-- Lines 140 to 150 of the source: locate the greedy bracket span and
decode it, falling back to decoding the entire output only when no span
exists. -/
def extractJsonFromResponse (response_text : String) : Option Json :=
  match matchArraySpan response_text with
  | some span => jsonLoads span
  | none => jsonLoads response_text

/-- Lines 140 to 163 of the source: decode the model output and convert the
decoded elements into InvoiceAnalysis records; any exception aborts. -/
def parseLlmOutput (response_text : String) : Except String (List InvoiceAnalysis) :=
  match extractJsonFromResponse response_text with
  | none => Except.error jsonDecodeFailMsg
  | some j =>
    match pyIterElems j with
    | none => Except.error notIterableMsg
    | some elems =>
      match convertAnalyses elems with
      | some out => Except.ok out
      | none => Except.error elemFailMsg

/-- The case-insensitive pdf extension test used by the member filter and
the upload validation. -/
def isPdfName (s : String) : Bool :=
  pyEndsWith (pyLower s) ".pdf"

/-- Embedding of extract_text_from_pdf: concatenate the page texts with a
newline after each page and strip the result; any PyPDF2 exception becomes
the 400 extraction error carrying its message. -/
def extract_text_from_pdf (pypdf : Bytes → PdfParse) (pdf_file_bytes : Bytes) :
    Except HTTPError String :=
  match pypdf pdf_file_bytes with
  | PdfParse.err m => Except.error ⟨400, "Error extracting PDF text: " ++ m⟩
  | PdfParse.ok pages =>
    Except.ok (pyStrip (pages.foldl (fun a p => a ++ p ++ "\n") ""))

/-- The member loop of extract_invoices_from_zip: members whose names end in
pdf case-insensitively are extracted into the dict, others are skipped; a
failing extraction raises out of the loop. -/
def zipLoop (pypdf : Bytes → PdfParse) :
    List ZipMember → List (String × String) →
    Except HTTPError (List (String × String))
  | [], acc => Except.ok acc
  | e :: rest, acc =>
    if isPdfName e.filename then
      match extract_text_from_pdf pypdf e.data with
      | Except.ok t => zipLoop pypdf rest (dictInsert acc e.filename t)
      | Except.error he => Except.error he
    else zipLoop pypdf rest acc

/-- Embedding of extract_invoices_from_zip: open the archive and run the
member loop; any exception inside the try block, including the
HTTPException raised by a failing member extraction, is caught and
re-raised as the 400 ZIP processing error carrying the stringified
exception. -/
def extract_invoices_from_zip (unzip : Bytes → ZipOpen)
    (pypdf : Bytes → PdfParse) (zip_file_bytes : Bytes) :
    Except HTTPError (List (String × String)) :=
  match unzip zip_file_bytes with
  | ZipOpen.err m => Except.error ⟨400, "Error processing ZIP file: " ++ m⟩
  | ZipOpen.ok entries =>
    match zipLoop pypdf entries [] with
    | Except.ok inv => Except.ok inv
    | Except.error he =>
      Except.error ⟨400, "Error processing ZIP file: " ++ strOfHTTPError he⟩

/-- The combined user prompt of analyze_invoices_with_llm, built exactly as
the source formats it. -/
def combinedPrompt (policy_text : String) (invoices : List (String × String)) :
    String :=
  " COMPANY REIMBURSEMENT POLICY:" ++ policy_text ++ " INVOICES TO ANALYZE:"
    ++ String.join (invoices.map
        (fun p => "\n--- INVOICE: " ++ p.1 ++ " ---\n" ++ p.2 ++ "\n"))
    ++ "\nPlease analyze each invoice against the policy and provide a JSON array response with the exact format specified in the system prompt.\n"

/-- Embedding of analyze_invoices_with_llm: compose the prompt, consult the
model oracle (which folds in the constant system prompt and the generation
parameters), then decode and convert; every exception inside the try block
becomes the 500 analysis failure carrying its message. -/
def analyze_invoices_with_llm (llm : String → Except String String)
    (policy_text : String) (invoices : List (String × String)) :
    Except HTTPError (List InvoiceAnalysis) :=
  let prompt := combinedPrompt policy_text invoices
  match llm prompt with
  | Except.error m => Except.error ⟨500, "LLM analysis failed: " ++ m⟩
  | Except.ok response_text =>
    match parseLlmOutput response_text with
    | Except.ok out => Except.ok out
    | Except.error m => Except.error ⟨500, "LLM analysis failed: " ++ m⟩

/-- The external collaborators of one request: the PDF library, the ZIP
library and the model call, each as the oracle of its outcomes. -/
structure Oracles where
  pypdf : Bytes → PdfParse
  unzip : Bytes → ZipOpen
  llm : String → Except String String

/-- Outcome of the try block of the endpoint, with flags recording which
side effects were attempted: reading the policy bytes, reading the archive
bytes, and issuing the model call. -/
structure TryOut where
  result : Except PyExc ReimbursementResponse
  policyRead : Bool
  zipRead : Bool
  llmCalled : Bool

/-- Lines 191 to 212 of the source, the try block of analyze_invoices: read
and extract the policy, reject whitespace-only policy text, read and load
the invoices, reject an empty mapping, then analyze. Component
HTTPExceptions propagate as such; a failing read raises its own non-HTTP
exception. -/
def tryBody (o : Oracles) (hr_policy invoices_zip : UploadFile) : TryOut :=
  match hr_policy.readResult with
  | Except.error m => ⟨Except.error (PyExc.other m), true, false, false⟩
  | Except.ok policy_bytes =>
    match extract_text_from_pdf o.pypdf policy_bytes with
    | Except.error e => ⟨Except.error (PyExc.http e), true, false, false⟩
    | Except.ok policy_text =>
      if pyStrip policy_text = "" then
        ⟨Except.error (PyExc.http ⟨400, "Could not extract text from policy PDF"⟩),
         true, false, false⟩
      else
        match invoices_zip.readResult with
        | Except.error m => ⟨Except.error (PyExc.other m), true, true, false⟩
        | Except.ok invoices_bytes =>
          match extract_invoices_from_zip o.unzip o.pypdf invoices_bytes with
          | Except.error e => ⟨Except.error (PyExc.http e), true, true, false⟩
          | Except.ok invoices =>
            if invoices = [] then
              ⟨Except.error (PyExc.http ⟨400, "No PDF invoices found in ZIP file"⟩),
               true, true, false⟩
            else
              match analyze_invoices_with_llm o.llm policy_text invoices with
              | Except.error e => ⟨Except.error (PyExc.http e), true, true, true⟩
              | Except.ok analyses =>
                ⟨Except.ok ⟨analyses, analyses.length⟩, true, true, true⟩

/-- Outcome of the whole endpoint with the side effect flags. -/
structure OrchResult where
  result : Except HTTPError ReimbursementResponse
  policyRead : Bool
  zipRead : Bool
  llmCalled : Bool

/-- Embedding of the analyze_invoices endpoint: the two filename checks run
before the try block, then the try block runs with its except clauses:
HTTPException re-raised unchanged, anything else wrapped as the 500 internal
server error. -/
def analyze_invoices (o : Oracles) (hr_policy invoices_zip : UploadFile) :
    OrchResult :=
  if pyEndsWith (pyLower hr_policy.filename) ".pdf" then
    if pyEndsWith (pyLower invoices_zip.filename) ".zip" then
      match tryBody o hr_policy invoices_zip with
      | ⟨Except.ok r, p, z, l⟩ => ⟨Except.ok r, p, z, l⟩
      | ⟨Except.error (PyExc.http e), p, z, l⟩ => ⟨Except.error e, p, z, l⟩
      | ⟨Except.error (PyExc.other m), p, z, l⟩ =>
        ⟨Except.error ⟨500, "Internal server error: " ++ m⟩, p, z, l⟩
    else ⟨Except.error ⟨400, "Invoices must be in a ZIP file"⟩, false, false, false⟩
  else ⟨Except.error ⟨400, "HR policy must be a PDF file"⟩, false, false, false⟩

/-- The key sequence of an invoice mapping. -/
def keysOf (inv : List (String × String)) : List String :=
  inv.map Prod.fst

/-- The names of the qualifying PDF members of an archive, in member order
and with multiplicity. -/
def pdfNames (entries : List ZipMember) : List String :=
  (entries.filter (fun e => isPdfName e.filename)).map (fun e => e.filename)

/-- The sublist of names not yet seen, keeping the first occurrence of each
name: the key order a Python dict acquires when fed these names. -/
def dedupAgainst : List String → List String → List String
  | [], _ => []
  | k :: rest, seen =>
    if k ∈ seen then dedupAgainst rest seen
    else k :: dedupAgainst rest (k :: seen)

/-- All contiguous character substrings of a list, with duplicates. -/
def substringsOf (cs : List Char) : List (List Char) :=
  (List.range (cs.length + 1)).flatMap (fun i =>
    (List.range (cs.length + 1 - i)).map (fun len => (cs.drop i).take len))

/-- Whether a character list decodes as a JSON array document. -/
def decodesAsArray (t : List Char) : Bool :=
  match jsonParseChars t with
  | some (Json.arr _) => true
  | _ => false

/-- The substrings of a string that decode as JSON arrays. -/
def arrayOccurrences (s : String) : List (List Char) :=
  (substringsOf s.data).filter decodesAsArray

/-- Whether a character list decodes exactly as the two element array of the
numbers one and two. -/
def isArrOneTwo (t : List Char) : Bool :=
  match jsonParseChars t with
  | some (Json.arr [Json.num a, Json.num b]) => decide (a = 1) && decide (b = 2)
  | _ => false

/-- Concrete archive oracle for the member failure scenario: one PDF member. -/
def unzipC1 : Bytes → ZipOpen :=
  fun _ => ZipOpen.ok [⟨"a.pdf", [0]⟩]

/-- Concrete PDF oracle that fails on every byte stream. -/
def pypdfC1 : Bytes → PdfParse :=
  fun _ => PdfParse.err "bad"

/-- Concrete model output for the surrounded array scenario: prose with a
closing bracket after the array. -/
def c2cs : String := "[1,2] x ]"

/-- Concrete model output with prose around one JSON array and no stray
brackets. -/
def sC2 : String := "Result: [\x7b\"invoice_id\": \"a.pdf\", \"reimbursement_status\": \"Declined\", \"reimbursable_amount\": 0, \"reason\": \"no receipt\"\x7d] Done"

/-- The greedy bracket span of sC2. -/
def spanC2 : String := "[\x7b\"invoice_id\": \"a.pdf\", \"reimbursement_status\": \"Declined\", \"reimbursable_amount\": 0, \"reason\": \"no receipt\"\x7d]"

/-- The decoded element of spanC2. -/
def objC2 : Json :=
  Json.obj [("invoice_id", Json.str "a.pdf"),
            ("reimbursement_status", Json.str "Declined"),
            ("reimbursable_amount", Json.num 0),
            ("reason", Json.str "no receipt")]

/-- Concrete member list with two PDF members sharing one name and one
non-PDF member. -/
def entriesC3 : List ZipMember :=
  [⟨"a.pdf", [0]⟩, ⟨"b.txt", [0]⟩, ⟨"a.pdf", [1]⟩]

/-- Concrete archive oracle always opening to entriesC3. -/
def unzipC3 : Bytes → ZipOpen :=
  fun _ => ZipOpen.ok entriesC3

/-- Concrete PDF oracle distinguishing the two member byte streams. -/
def pypdfC3 : Bytes → PdfParse :=
  fun b => PdfParse.ok [if b = [0] then "x" else "y"]

/-- Concrete model output whose single record carries a negative amount. -/
def c4s : String := "[\x7b\"invoice_id\": \"a\", \"reimbursement_status\": \"Declined\", \"reimbursable_amount\": -5, \"reason\": \"r\"\x7d]"

/-- Model oracle returning c4s. -/
def llmC4 : String → Except String String :=
  fun _ => Except.ok c4s

/-- The decoded element list of c4s. -/
def elemsC4 : List Json :=
  [Json.obj [("invoice_id", Json.str "a"),
             ("reimbursement_status", Json.str "Declined"),
             ("reimbursable_amount", Json.num (-5)),
             ("reason", Json.str "r")]]

/-- Concrete element fields with a fractional amount. -/
def fieldsC5 : List (String × Json) :=
  [("invoice_id", Json.str "a.pdf"),
   ("reimbursement_status", Json.str "Partially Reimbursed"),
   ("reimbursable_amount", Json.num (42.9 : Rat)),
   ("reason", Json.str "cap")]

/-- The record accepted from fieldsC5. -/
def aC5 : InvoiceAnalysis :=
  ⟨"a.pdf", "Partially Reimbursed", 42, "cap"⟩

/-- Oracles never consulted before validation fails. -/
def oAny : Oracles :=
  ⟨fun _ => PdfParse.ok [], fun _ => ZipOpen.ok [], fun _ => Except.error "unused"⟩

/-- Upload with a non-PDF policy filename. -/
def hpBad : UploadFile := ⟨"policy.txt", Except.ok []⟩

/-- Upload with a PDF policy filename. -/
def hpGood : UploadFile := ⟨"policy.pdf", Except.ok []⟩

/-- Upload with a non-ZIP invoices filename. -/
def izBad : UploadFile := ⟨"invoices.rar", Except.ok []⟩

/-- Upload with a ZIP invoices filename. -/
def izGood : UploadFile := ⟨"invoices.zip", Except.ok []⟩

/-- Oracles for the empty mapping scenario: readable policy, archive with no
PDF member, model oracle that would fail if consulted. -/
def oC7 : Oracles :=
  ⟨fun _ => PdfParse.ok ["The policy"],
   fun _ => ZipOpen.ok [⟨"readme.txt", []⟩],
   fun _ => Except.error "never called"⟩

/-- Policy upload for the empty mapping scenario. -/
def hpC7 : UploadFile := ⟨"policy.pdf", Except.ok [1]⟩

/-- Invoices upload for the empty mapping scenario. -/
def izC7 : UploadFile := ⟨"inv.zip", Except.ok [2]⟩

/-- Model oracle that answers with plain prose carrying no JSON. -/
def llmC8 : String → Except String String :=
  fun _ => Except.ok "I cannot determine this."

/-- Well formed model output with one record. -/
def okJsonC9 : String := "[\x7b\"invoice_id\": \"a.pdf\", \"reimbursement_status\": \"Fully Reimbursed\", \"reimbursable_amount\": 50, \"reason\": \"Within meal limit\"\x7d]"

/-- Policy upload for the successful scenario. -/
def hpC9 : UploadFile := ⟨"policy.pdf", Except.ok [1]⟩

/-- Invoices upload for the successful scenario. -/
def izC9 : UploadFile := ⟨"inv.zip", Except.ok [2]⟩

/-- Oracles for the successful scenario. -/
def oC9 : Oracles :=
  ⟨fun _ => PdfParse.ok ["text"],
   fun _ => ZipOpen.ok [⟨"a.pdf", [3]⟩],
   fun _ => Except.ok okJsonC9⟩

/-- The response of the successful scenario. -/
def respC9 : ReimbursementResponse :=
  ⟨[⟨"a.pdf", "Fully Reimbursed", 50, "Within meal limit"⟩], 1⟩

/-- Invoices upload for the re-raise scenarios. -/
def izC10 : UploadFile := ⟨"i.zip", Except.ok []⟩

/-- Oracles whose PDF library fails, driving an HTTPException through the
try block. -/
def oC10 : Oracles :=
  ⟨fun _ => PdfParse.err "boom", fun _ => ZipOpen.ok [], fun _ => Except.error "x"⟩

/-- Policy upload whose bytes read successfully. -/
def hpC10a : UploadFile := ⟨"p.pdf", Except.ok []⟩

/-- Policy upload whose read raises a non-HTTP exception. -/
def hpC10b : UploadFile := ⟨"p.pdf", Except.error "disk bad"⟩

set_option maxRecDepth 100000

/-- A failing extraction always signals the 400 extraction error carrying
the library message. -/
theorem extract_text_error_shape (pypdf : Bytes → PdfParse) (b : Bytes)
    (he : HTTPError) (h : extract_text_from_pdf pypdf b = Except.error he) :
    ∃ m, he = ⟨400, "Error extracting PDF text: " ++ m⟩ := by
  unfold extract_text_from_pdf at h
  split at h
  · cases h
    exact ⟨_, rfl⟩
  · simp at h

/-- Every error escaping the member loop is an extraction error. -/
theorem zipLoop_error_shape (pypdf : Bytes → PdfParse) :
    ∀ (entries : List ZipMember) (acc : List (String × String)) (he : HTTPError),
    zipLoop pypdf entries acc = Except.error he →
    ∃ m, he = ⟨400, "Error extracting PDF text: " ++ m⟩ := by
  intro entries
  induction entries with
  | nil => intro acc he h; simp [zipLoop] at h
  | cons e rest ih =>
    intro acc he h
    simp only [zipLoop] at h
    split at h
    · cases hx : extract_text_from_pdf pypdf e.data with
      | error he2 =>
        rw [hx] at h
        cases h
        exact extract_text_error_shape pypdf e.data he hx
      | ok t =>
        rw [hx] at h
        exact ih _ he h
    · exact ih _ he h

/-- Key effect of a dict insertion: existing keys are kept in place, a new
key is appended. -/
theorem keysOf_dictInsert (d : List (String × String)) (k v : String) :
    keysOf (dictInsert d k v) =
      if k ∈ keysOf d then keysOf d else keysOf d ++ [k] := by
  unfold dictInsert keysOf
  by_cases hk : k ∈ d.map Prod.fst
  · have hany : (d.any fun p => p.1 == k) = true := by
      rw [List.any_eq_true]
      obtain ⟨x, hx, hfst⟩ := List.mem_map.mp hk
      exact ⟨x, hx, by simp [hfst]⟩
    rw [hany, if_pos hk]
    simp only [if_true, List.map_map]
    apply List.map_congr_left
    intro a _
    by_cases h : a.1 = k
    · simp [h]
    · simp [h]
  · have hany : (d.any fun p => p.1 == k) = false := by
      rw [List.any_eq_false]
      intro x hx hbeq
      exact hk (List.mem_map.mpr ⟨x, hx, by simpa using hbeq⟩)
    rw [hany, if_neg hk]
    simp

/-- The dedup traversal only depends on the membership content of the seen
list. -/
theorem dedupAgainst_congr :
    ∀ (l s₁ s₂ : List String), (∀ x, x ∈ s₁ ↔ x ∈ s₂) →
    dedupAgainst l s₁ = dedupAgainst l s₂ := by
  intro l
  induction l with
  | nil => intro s₁ s₂ _; rfl
  | cons k rest ih =>
    intro s₁ s₂ h
    simp only [dedupAgainst]
    by_cases hk : k ∈ s₁
    · rw [if_pos hk, if_pos ((h k).mp hk)]
      exact ih s₁ s₂ h
    · rw [if_neg hk, if_neg (fun hc => hk ((h k).mpr hc))]
      have : ∀ x, x ∈ k :: s₁ ↔ x ∈ k :: s₂ := by
        intro x
        simp [h x]
      rw [ih (k :: s₁) (k :: s₂) this]

/-- Every name produced by the dedup traversal comes from the input list. -/
theorem mem_dedupAgainst :
    ∀ (l seen : List String) (x : String), x ∈ dedupAgainst l seen → x ∈ l := by
  intro l
  induction l with
  | nil => intro seen x h; simp [dedupAgainst] at h
  | cons k rest ih =>
    intro seen x h
    simp only [dedupAgainst] at h
    by_cases hk : k ∈ seen
    · rw [if_pos hk] at h
      exact List.mem_cons_of_mem k (ih seen x h)
    · rw [if_neg hk] at h
      rcases List.mem_cons.mp h with rfl | hmem
      · exact List.mem_cons_self x rest
      · exact List.mem_cons_of_mem k (ih (k :: seen) x hmem)

/-- Every qualifying member name passes the pdf extension test. -/
theorem mem_pdfNames (entries : List ZipMember) (k : String)
    (h : k ∈ pdfNames entries) : isPdfName k = true := by
  unfold pdfNames at h
  obtain ⟨e, he, hk⟩ := List.mem_map.mp h
  rw [← hk]
  simpa using (List.mem_filter.mp he).2

/-- Key sequence of a successful member loop: the keys already accumulated
followed by the first occurrences of the qualifying member names not yet
present. -/
theorem zipLoop_ok_keys (pypdf : Bytes → PdfParse) :
    ∀ (entries : List ZipMember) (acc inv : List (String × String)),
    zipLoop pypdf entries acc = Except.ok inv →
    keysOf inv = keysOf acc ++ dedupAgainst (pdfNames entries) (keysOf acc) := by
  intro entries
  induction entries with
  | nil =>
    intro acc inv h
    simp only [zipLoop] at h
    cases h
    simp [pdfNames, dedupAgainst]
  | cons e rest ih =>
    intro acc inv h
    simp only [zipLoop] at h
    by_cases hp : isPdfName e.filename = true
    · rw [if_pos hp] at h
      cases hx : extract_text_from_pdf pypdf e.data with
      | error he2 => rw [hx] at h; cases h
      | ok t =>
        rw [hx] at h
        have hkeys := ih (dictInsert acc e.filename t) inv h
        have hnames : pdfNames (e :: rest) = e.filename :: pdfNames rest := by
          simp [pdfNames, List.filter_cons, hp]
        rw [hnames, hkeys, keysOf_dictInsert]
        by_cases hk : e.filename ∈ keysOf acc
        · rw [if_pos hk]
          simp only [dedupAgainst, if_pos hk]
        · rw [if_neg hk]
          simp only [dedupAgainst, if_neg hk]
          rw [dedupAgainst_congr (pdfNames rest) (keysOf acc ++ [e.filename])
            (e.filename :: keysOf acc) (by intro x; simp [or_comm])]
          simp
    · rw [if_neg hp] at h
      have hkeys := ih acc inv h
      have hnames : pdfNames (e :: rest) = pdfNames rest := by
        simp [pdfNames, List.filter_cons, hp]
      rw [hnames, hkeys]

/-- When every qualifying member extracts, the member loop succeeds. -/
theorem zipLoop_ok_exists (pypdf : Bytes → PdfParse) :
    ∀ (entries : List ZipMember),
    (∀ e ∈ entries, isPdfName e.filename = true →
      ∃ t, extract_text_from_pdf pypdf e.data = Except.ok t) →
    ∀ acc, ∃ inv, zipLoop pypdf entries acc = Except.ok inv := by
  intro entries
  induction entries with
  | nil => intro _ acc; exact ⟨acc, rfl⟩
  | cons e rest ih =>
    intro h acc
    have hrest : ∀ x ∈ rest, isPdfName x.filename = true →
        ∃ t, extract_text_from_pdf pypdf x.data = Except.ok t :=
      fun x hx hpx => h x (List.mem_cons_of_mem e hx) hpx
    by_cases hp : isPdfName e.filename = true
    · obtain ⟨t, ht⟩ := h e (List.mem_cons_self e rest) hp
      obtain ⟨inv, hinv⟩ := ih hrest (dictInsert acc e.filename t)
      refine ⟨inv, ?_⟩
      simp only [zipLoop]
      rw [if_pos hp, ht]
      exact hinv
    · obtain ⟨inv, hinv⟩ := ih hrest acc
      refine ⟨inv, ?_⟩
      simp only [zipLoop]
      rw [if_neg hp]
      exact hinv

/-- An accepted element is a dict whose amount field passed the int
builtin, and the record stores exactly that coerced integer. -/
theorem convertOne_amount (j : Json) (a : InvoiceAnalysis)
    (h : convertOne j = some a) :
    ∃ fields v, j = Json.obj fields ∧
      jsonLookup fields "reimbursable_amount" = some v ∧
      pyIntOfJson v = some a.reimbursable_amount := by
  unfold convertOne at h
  split at h
  · split at h
    · split at h
      · cases h
        rename_i fields x1 x2 x3 x4 iid st amt rs h1 h2 h3 h4 x5 n h5
        exact ⟨fields, amt, rfl, h3, h5⟩
      · cases h
    · cases h
  · cases h

/-- Every successful try block reports a count equal to the length of its
analyses. -/
theorem tryBody_ok_total (o : Oracles) (hp iz : UploadFile)
    (r : ReimbursementResponse)
    (h : (tryBody o hp iz).result = Except.ok r) :
    r.total_invoices_processed = r.analyses.length := by
  unfold tryBody at h
  split at h <;> try simp_all
  all_goals (split at h <;> try simp_all)
  all_goals (split at h <;> try simp_all)
  all_goals (split at h <;> try simp_all)
  all_goals (split at h <;> try simp_all)
  all_goals (split at h <;> try simp_all)
  all_goals (split at h <;> try simp_all)
  all_goals rw [← h]

/-- C2, counterexample: the model output built from one well formed JSON
array followed by prose containing a stray closing bracket defeats the
parser. Every substring of the output that decodes as a JSON array decodes
to the array of one and two, so the output contains exactly that one well
formed array surrounded by prose, yet the parser signals the decode failure
instead of returning the elements. -/
theorem c2_counterexample :
    arrayOccurrences c2cs ≠ [] ∧
    (arrayOccurrences c2cs).all isArrOneTwo = true ∧
    parseLlmOutput c2cs = Except.error jsonDecodeFailMsg :=
  ⟨by decide, by with_unfolding_all decide, rfl⟩

/-- C2, amended: whenever the greedy span from the earliest opening bracket
through the last closing bracket is itself a well formed JSON array, the
parser decodes exactly that span and the decoded elements become the result
records. -/
theorem c2_greedy_span_decode (s t : String) (xs : List Json)
    (h1 : matchArraySpan s = some t)
    (h2 : jsonLoads t = some (Json.arr xs)) :
    extractJsonFromResponse s = some (Json.arr xs) ∧
    ∀ out, convertAnalyses xs = some out → parseLlmOutput s = Except.ok out := by
  have hx : extractJsonFromResponse s = some (Json.arr xs) := by
    unfold extractJsonFromResponse
    rw [h1]
    exact h2
  refine ⟨hx, fun out h3 => ?_⟩
  unfold parseLlmOutput
  rw [hx]
  simp only [pyIterElems]
  rw [h3]

/-- C2, witness: a concrete model output with prose on both sides of the
array is located, decoded and converted into its one record. -/
theorem c2_greedy_span_decode_witness :
    matchArraySpan sC2 = some spanC2 ∧
    jsonLoads spanC2 = some (Json.arr [objC2]) ∧
    parseLlmOutput sC2 =
      Except.ok [⟨"a.pdf", "Declined", 0, "no receipt"⟩] :=
  ⟨rfl, by with_unfolding_all rfl,
   (c2_greedy_span_decode sC2 spanC2 [objC2] rfl
     (by with_unfolding_all rfl)).2 _ (by with_unfolding_all rfl)⟩

/-- C5: an element whose amount field is a JSON number is accepted with the
number truncated toward zero, the behaviour of the int builtin. -/
theorem c5_fractional_truncation (fields : List (String × Json)) (q : Rat)
    (a : InvoiceAnalysis)
    (h1 : jsonLookup fields "reimbursable_amount" = some (Json.num q))
    (h2 : convertOne (Json.obj fields) = some a) :
    a.reimbursable_amount = ratTrunc q := by
  obtain ⟨fields2, v, hj, hlk, hpy⟩ := convertOne_amount _ a h2
  cases hj
  rw [h1] at hlk
  cases hlk
  simp only [pyIntOfJson] at hpy
  injection hpy with h6
  exact h6.symm

/-- C5, witness: the fractional amount of forty two point nine is accepted
as forty two. -/
theorem c5_fractional_truncation_witness :
    (42.9 : Rat).den ≠ 1 ∧
    convertOne (Json.obj fieldsC5) = some aC5 ∧
    aC5.reimbursable_amount = ratTrunc (42.9 : Rat) ∧
    ratTrunc (42.9 : Rat) = 42 :=
  ⟨by with_unfolding_all decide, by with_unfolding_all rfl,
   c5_fractional_truncation fieldsC5 (42.9 : Rat) aC5 rfl
     (by with_unfolding_all rfl),
   by with_unfolding_all decide⟩

/-- C6: a policy filename failing the pdf extension test, or a passing
policy filename with an invoices filename failing the zip extension test,
is rejected with the 400 error identifying the violated check, before any
bytes are read and before any extraction or model call. -/
theorem c6_filetype_validation_first (o : Oracles)
    (hr_policy invoices_zip : UploadFile) :
    (pyEndsWith (pyLower hr_policy.filename) ".pdf" = false →
      analyze_invoices o hr_policy invoices_zip =
        ⟨Except.error ⟨400, "HR policy must be a PDF file"⟩,
         false, false, false⟩) ∧
    (pyEndsWith (pyLower hr_policy.filename) ".pdf" = true →
      pyEndsWith (pyLower invoices_zip.filename) ".zip" = false →
      analyze_invoices o hr_policy invoices_zip =
        ⟨Except.error ⟨400, "Invoices must be in a ZIP file"⟩,
         false, false, false⟩) := by
  constructor
  · intro h
    simp [analyze_invoices, h]
  · intro h1 h2
    simp [analyze_invoices, h1, h2]

/-- C6, witness: concrete rejected uploads on both checks, with all side
effect flags false. -/
theorem c6_filetype_validation_first_witness :
    analyze_invoices oAny hpBad izGood =
      ⟨Except.error ⟨400, "HR policy must be a PDF file"⟩,
       false, false, false⟩ ∧
    analyze_invoices oAny hpGood izBad =
      ⟨Except.error ⟨400, "Invoices must be in a ZIP file"⟩,
       false, false, false⟩ :=
  ⟨(c6_filetype_validation_first oAny hpBad izGood).1 (by decide),
   (c6_filetype_validation_first oAny hpGood izBad).2 (by decide) (by decide)⟩

/-- C7: when both filenames validate, the policy reads and extracts to non
whitespace text, the archive reads and loads to an empty mapping, the
endpoint answers the 400 no invoices error and the model oracle is never
consulted. -/
theorem c7_empty_mapping_rejected (o : Oracles)
    (hr_policy invoices_zip : UploadFile) (pb zb : Bytes) (pt : String)
    (h1 : pyEndsWith (pyLower hr_policy.filename) ".pdf" = true)
    (h2 : pyEndsWith (pyLower invoices_zip.filename) ".zip" = true)
    (h3 : hr_policy.readResult = Except.ok pb)
    (h4 : extract_text_from_pdf o.pypdf pb = Except.ok pt)
    (h5 : ¬ pyStrip pt = "")
    (h6 : invoices_zip.readResult = Except.ok zb)
    (h7 : extract_invoices_from_zip o.unzip o.pypdf zb = Except.ok []) :
    analyze_invoices o hr_policy invoices_zip =
      ⟨Except.error ⟨400, "No PDF invoices found in ZIP file"⟩,
       true, true, false⟩ := by
  simp [analyze_invoices, tryBody, h1, h2, h3, h4, h5, h6, h7]

/-- C7, witness: a concrete archive holding only a text member produces the
empty mapping and the 400 answer with the model flag false. -/
theorem c7_empty_mapping_rejected_witness :
    analyze_invoices oC7 hpC7 izC7 =
      ⟨Except.error ⟨400, "No PDF invoices found in ZIP file"⟩,
       true, true, false⟩ :=
  c7_empty_mapping_rejected oC7 hpC7 izC7 [1] [2] "The policy"
    (by decide) (by decide) rfl rfl (by decide) rfl rfl

/-- C8: when the model oracle answers a text with no bracket span and the
text is not itself valid JSON, the analysis signals the 500 failure
wrapping the decode error. -/
theorem c8_no_json_parse_error (llm : String → Except String String)
    (policy_text : String) (invoices : List (String × String)) (s : String)
    (h1 : llm (combinedPrompt policy_text invoices) = Except.ok s)
    (h2 : matchArraySpan s = none)
    (h3 : jsonLoads s = none) :
    analyze_invoices_with_llm llm policy_text invoices =
      Except.error ⟨500, "LLM analysis failed: " ++ jsonDecodeFailMsg⟩ := by
  simp [analyze_invoices_with_llm, h1, parseLlmOutput,
    extractJsonFromResponse, h2, h3]

/-- C8, witness: the plain refusal sentence drives the 500 decode
failure. -/
theorem c8_no_json_parse_error_witness :
    analyze_invoices_with_llm llmC8 "p" [("a.pdf", "t")] =
      Except.error ⟨500, "LLM analysis failed: " ++ jsonDecodeFailMsg⟩ :=
  c8_no_json_parse_error llmC8 "p" [("a.pdf", "t")]
    "I cannot determine this." rfl rfl rfl

/-- C1, counterexample: an archive that opens to one PDF member whose
extraction fails is answered with the ZIP processing error wrapping the
stringified extraction exception, not with the extraction error itself:
the except clause of the loader catches the HTTPException of the extractor
and re-wraps it. -/
theorem c1_counterexample :
    extract_invoices_from_zip unzipC1 pypdfC1 [] =
      Except.error ⟨400,
        "Error processing ZIP file: 400: Error extracting PDF text: bad"⟩ ∧
    ("Error processing ZIP file: 400: Error extracting PDF text: bad").data.take 27 =
      ("Error processing ZIP file: ").data ∧
    "Error processing ZIP file: 400: Error extracting PDF text: bad" ≠
      "Error extracting PDF text: bad" :=
  ⟨rfl, by decide, by decide⟩

/-- C1, amended: when the archive opens but the member loop fails, the
failure is always an extraction error, the whole load aborts with no
partial mapping, and the loader signals the 400 ZIP processing error
wrapping the stringified extraction error. -/
theorem c1_member_failure_wrapped (unzip : Bytes → ZipOpen)
    (pypdf : Bytes → PdfParse) (b : Bytes) (entries : List ZipMember)
    (he : HTTPError)
    (h1 : unzip b = ZipOpen.ok entries)
    (h2 : zipLoop pypdf entries [] = Except.error he) :
    (∃ m, he = ⟨400, "Error extracting PDF text: " ++ m⟩) ∧
    extract_invoices_from_zip unzip pypdf b =
      Except.error ⟨400, "Error processing ZIP file: " ++ strOfHTTPError he⟩ := by
  refine ⟨zipLoop_error_shape pypdf entries [] he h2, ?_⟩
  simp [extract_invoices_from_zip, h1, h2]

/-- C1, witness: the concrete failing member drives the wrapped error. -/
theorem c1_member_failure_wrapped_witness :
    extract_invoices_from_zip unzipC1 pypdfC1 [] =
      Except.error ⟨400, "Error processing ZIP file: " ++
        strOfHTTPError ⟨400, "Error extracting PDF text: " ++ "bad"⟩⟩ :=
  (c1_member_failure_wrapped unzipC1 pypdfC1 [] [⟨"a.pdf", [0]⟩]
    ⟨400, "Error extracting PDF text: " ++ "bad"⟩ rfl rfl).2

/-- C3, counterexample: an archive with two PDF members sharing one name
yields a mapping with a single entry, not one entry per PDF member. -/
theorem c3_counterexample :
    (pdfNames entriesC3).length = 2 ∧
    extract_invoices_from_zip unzipC3 pypdfC3 [] = Except.ok [("a.pdf", "y")] ∧
    (1 : Nat) ≠ 2 :=
  ⟨by decide, rfl, by decide⟩

/-- C3, amended: for a readable archive the loader succeeds and its mapping
holds exactly one entry per distinct qualifying member name, in first
occurrence order, keyed by the exact member path, and every key is a PDF
name; the entry count is the number of distinct PDF member names. -/
theorem c3_loader_keys (unzip : Bytes → ZipOpen) (pypdf : Bytes → PdfParse)
    (b : Bytes) (entries : List ZipMember)
    (h1 : unzip b = ZipOpen.ok entries)
    (h2 : ∀ e ∈ entries, isPdfName e.filename = true →
      ∃ t, extract_text_from_pdf pypdf e.data = Except.ok t) :
    ∃ inv, extract_invoices_from_zip unzip pypdf b = Except.ok inv ∧
      keysOf inv = dedupAgainst (pdfNames entries) [] ∧
      inv.length = (dedupAgainst (pdfNames entries) []).length ∧
      (∀ k ∈ keysOf inv, isPdfName k = true) := by
  obtain ⟨inv, hinv⟩ := zipLoop_ok_exists pypdf entries h2 []
  have hkeys : keysOf inv = dedupAgainst (pdfNames entries) [] := by
    have := zipLoop_ok_keys pypdf entries [] inv hinv
    simpa [keysOf] using this
  refine ⟨inv, ?_, hkeys, ?_, ?_⟩
  · simp [extract_invoices_from_zip, h1, hinv]
  · have hlen : inv.length = (keysOf inv).length := by simp [keysOf]
    rw [hlen, hkeys]
  · intro k hk
    rw [hkeys] at hk
    exact mem_pdfNames entries k (mem_dedupAgainst (pdfNames entries) [] k hk)

/-- C3, witness: the concrete duplicate name archive loads and its key
sequence is the deduped PDF name sequence, of length one. -/
theorem c3_loader_keys_witness :
    dedupAgainst (pdfNames entriesC3) [] = ["a.pdf"] ∧
    (∃ inv, extract_invoices_from_zip unzipC3 pypdfC3 [] = Except.ok inv ∧
      keysOf inv = dedupAgainst (pdfNames entriesC3) [] ∧
      inv.length = (dedupAgainst (pdfNames entriesC3) []).length ∧
      (∀ k ∈ keysOf inv, isPdfName k = true)) :=
  ⟨by decide,
   c3_loader_keys unzipC3 pypdfC3 [] entriesC3 rfl
     (fun e he hp => ⟨_, rfl⟩)⟩

/-- C4, counterexample: a model record carrying the amount minus five is
accepted verbatim, so accepted amounts are not always non-negative. -/
theorem c4_counterexample :
    analyze_invoices_with_llm llmC4 "p" [("a.pdf", "t")] =
      Except.ok [⟨"a", "Declined", -5, "r"⟩] ∧
    ((-5 : Int) < 0) :=
  ⟨by with_unfolding_all rfl, by decide⟩

/-- C4, amended: every record accepted by the converter stores an integer
obtained from the amount field of its element by the int builtin (whole by
construction, truncated toward zero for numbers), with no sign
constraint. -/
theorem c4_amount_integer_coercion :
    ∀ (elems : List Json) (out : List InvoiceAnalysis),
    convertAnalyses elems = some out →
    ∀ a ∈ out, ∃ j ∈ elems, ∃ fields v, j = Json.obj fields ∧
      jsonLookup fields "reimbursable_amount" = some v ∧
      pyIntOfJson v = some a.reimbursable_amount := by
  intro elems
  induction elems with
  | nil =>
    intro out h a ha
    simp only [convertAnalyses] at h
    cases h
    simp at ha
  | cons j rest ih =>
    intro out h a ha
    simp only [convertAnalyses] at h
    cases hc : convertOne j with
    | none => rw [hc] at h; cases h
    | some a0 =>
      rw [hc] at h
      cases hr : convertAnalyses rest with
      | none => rw [hr] at h; cases h
      | some l =>
        rw [hr] at h
        simp only [Option.map] at h
        cases h
        rcases List.mem_cons.mp ha with rfl | hmem
        · obtain ⟨fields, v, hj, hlk, hpy⟩ := convertOne_amount j a hc
          exact ⟨j, List.mem_cons_self j rest, fields, v, hj, hlk, hpy⟩
        · obtain ⟨j2, hj2, fields, v, hj, hlk, hpy⟩ := ih l hr a hmem
          exact ⟨j2, List.mem_cons_of_mem j hj2, fields, v, hj, hlk, hpy⟩

/-- C4, witness: the element with the minus five amount converts, and its
record amount is the coercion of that field. -/
theorem c4_amount_integer_coercion_witness :
    convertAnalyses elemsC4 = some [⟨"a", "Declined", -5, "r"⟩] ∧
    (∃ j ∈ elemsC4, ∃ fields v, j = Json.obj fields ∧
      jsonLookup fields "reimbursable_amount" = some v ∧
      pyIntOfJson v = some (-5 : Int)) := by
  constructor
  · with_unfolding_all rfl
  · exact c4_amount_integer_coercion elemsC4 [⟨"a", "Declined", -5, "r"⟩]
      (by with_unfolding_all rfl) ⟨"a", "Declined", -5, "r"⟩ (by simp)

/-- C9: every successful endpoint answer reports a processed count equal to
the length of its analyses sequence. -/
theorem c9_total_equals_length (o : Oracles) (hp iz : UploadFile)
    (r : ReimbursementResponse)
    (h : (analyze_invoices o hp iz).result = Except.ok r) :
    r.total_invoices_processed = r.analyses.length := by
  unfold analyze_invoices at h
  split at h
  · split at h
    · split at h
      · rename_i r2 p z l heq
        have h3 : r2 = r := by simpa using h
        subst h3
        exact tryBody_ok_total o hp iz r2 (by rw [heq])
      · simp at h
      · simp at h
    · simp at h
  · simp at h

/-- C9, witness: a concrete successful run answers one analysis and the
count one. -/
theorem c9_total_equals_length_witness :
    (analyze_invoices oC9 hpC9 izC9).result = Except.ok respC9 ∧
    respC9.total_invoices_processed = respC9.analyses.length :=
  ⟨by with_unfolding_all rfl,
   c9_total_equals_length oC9 hpC9 izC9 respC9 (by with_unfolding_all rfl)⟩

/-- C10: after the filename checks pass, an HTTPException escaping the try
block is re-raised unchanged, while any other exception becomes the 500
internal server error wrapping its message. -/
theorem c10_http_reraise_unchanged (o : Oracles) (hp iz : UploadFile)
    (h1 : pyEndsWith (pyLower hp.filename) ".pdf" = true)
    (h2 : pyEndsWith (pyLower iz.filename) ".zip" = true) :
    (∀ e : HTTPError, (tryBody o hp iz).result = Except.error (PyExc.http e) →
      (analyze_invoices o hp iz).result = Except.error e) ∧
    (∀ m : String, (tryBody o hp iz).result = Except.error (PyExc.other m) →
      (analyze_invoices o hp iz).result =
        Except.error ⟨500, "Internal server error: " ++ m⟩) := by
  constructor
  · intro e he
    rcases htB : tryBody o hp iz with ⟨res, p, z, l⟩
    rw [htB] at he
    have he2 : res = Except.error (PyExc.http e) := he
    subst he2
    simp [analyze_invoices, h1, h2, htB]
  · intro m hm
    rcases htB : tryBody o hp iz with ⟨res, p, z, l⟩
    rw [htB] at hm
    have hm2 : res = Except.error (PyExc.other m) := hm
    subst hm2
    simp [analyze_invoices, h1, h2, htB]

/-- C10, witness: a concrete component HTTPException reaches the response
with its status and message untouched, and a concrete failing read is
wrapped as the internal server error. -/
theorem c10_http_reraise_unchanged_witness :
    (analyze_invoices oC10 hpC10a izC10).result =
      Except.error ⟨400, "Error extracting PDF text: boom"⟩ ∧
    (analyze_invoices oC10 hpC10b izC10).result =
      Except.error ⟨500, "Internal server error: disk bad"⟩ :=
  ⟨(c10_http_reraise_unchanged oC10 hpC10a izC10 (by decide) (by decide)).1
     ⟨400, "Error extracting PDF text: boom"⟩ rfl,
   (c10_http_reraise_unchanged oC10 hpC10b izC10 (by decide) (by decide)).2
     "disk bad" rfl⟩
